import Mathlib

/-!
Shallow embedding of the geometry / smoothing / visibility pipeline of the
location-based AR collectible game, together with proofs about the
per-frame decision logic.  All real-number arithmetic of the JavaScript
source is embedded over `ℝ`; the JavaScript `%` operator (a truncating
remainder) is modelled by `jsFmod`, and `Math.atan2` by `atan2`.
-/

noncomputable section

/-- A latitude/longitude pair in degrees, as delivered by the geolocation API. -/
structure GeoPoint where
  latitude : ℝ
  longitude : ℝ

/-- A map coin from the fixed COINS list of the map component. -/
structure Coin where
  id : ℕ
  lat : ℝ
  lng : ℝ

/-- A spawn point produced by generateSpawnPoints in ARView.jsx. -/
structure SpawnPoint where
  id : ℕ
  lat : ℝ
  lng : ℝ
  caught : Bool

/-- Normalized device coordinates of a world position after
vector.project(camera); the source reads the x, y, z fields of the
projected THREE.Vector3. -/
structure NDC where
  x : ℝ
  y : ℝ
  z : ℝ

/-- Truncation toward zero, the rounding used by the JavaScript `%` operator. -/
def jsTrunc (x : ℝ) : ℤ :=
  if 0 ≤ x then ⌊x⌋ else ⌈x⌉

/-- The JavaScript remainder operator `x % y` (result carries the sign of the
dividend; the quotient is truncated toward zero). -/
def jsFmod (x y : ℝ) : ℝ :=
  x - y * (jsTrunc (x / y) : ℝ)

/-- JavaScript `Math.atan2` on real inputs (signed zeros are not
distinguishable in `ℝ`; `Math.atan2(0, 0) = 0` in JavaScript). -/
def atan2 (y x : ℝ) : ℝ :=
  if 0 < x then Real.arctan (y / x)
  else if x < 0 ∧ 0 ≤ y then Real.arctan (y / x) + Real.pi
  else if x < 0 ∧ y < 0 then Real.arctan (y / x) - Real.pi
  else if x = 0 ∧ 0 < y then Real.pi / 2
  else if x = 0 ∧ y < 0 then -(Real.pi / 2)
  else 0

/-- The `toRad` helper of the source: degrees to radians. -/
def toRad (deg : ℝ) : ℝ := deg * Real.pi / 180

/-- The `toDeg` helper of calculateBearing: radians to degrees. -/
def toDeg (rad : ℝ) : ℝ := rad * 180 / Real.pi

/-- The intermediate quantity `a` of haversineDistance in ARView.jsx. -/
def haversineA (lat1 lon1 lat2 lon2 : ℝ) : ℝ :=
  let dLat := toRad (lat2 - lat1)
  let dLon := toRad (lon2 - lon1)
  Real.sin (dLat / 2) ^ 2 +
    Real.cos (toRad lat1) * Real.cos (toRad lat2) * Real.sin (dLon / 2) ^ 2

/-- haversineDistance from ARView.jsx (and its duplicated copies): great-circle
distance in meters with mean Earth radius 6371000 m. -/
def haversineDistance (lat1 lon1 lat2 lon2 : ℝ) : ℝ :=
  let a := haversineA lat1 lon1 lat2 lon2
  let c := 2 * atan2 (Real.sqrt a) (Real.sqrt (1 - a))
  6371000 * c

/-- calculateBearing from ARView.jsx: initial compass bearing in degrees,
normalized by `(brng + 360) % 360`. -/
def calculateBearing (lat1 lon1 lat2 lon2 : ℝ) : ℝ :=
  let dLon := toRad (lon2 - lon1)
  let y := Real.sin dLon * Real.cos (toRad lat2)
  let x := Real.cos (toRad lat1) * Real.sin (toRad lat2) -
    Real.sin (toRad lat1) * Real.cos (toRad lat2) * Real.cos dLon
  let brng := toDeg (atan2 y x)
  jsFmod (brng + 360) 360

/-- smoothValue from ARView.jsx; a `none` previous value models the
`prev === null || isNaN(prev)` cold-start guard of the source. -/
def smoothValue (prev : Option ℝ) (next : ℝ) (factor : ℝ) : ℝ :=
  match prev with
  | none => next
  | some p => p + (next - p) * factor

/-- The folded angle difference of the ARView and UpdateView animate loops:
`Math.abs(((bearing - heading) + 360) % 360)`, folded above 180. -/
def foldAngle (bearing heading : ℝ) : ℝ :=
  let a := |jsFmod (bearing - heading + 360) 360|
  if a > 180 then 360 - a else a

/-- The angle computation of the dynamic-smoothing ARView variant:
no `Math.abs`, followed by a clamp `Math.min(Math.max(angle, 0), 180)`. -/
def foldAngleClamped (bearing heading : ℝ) : ℝ :=
  let a := jsFmod (bearing - heading + 360) 360
  let b := if a > 180 then 360 - a else a
  min (max b 0) 180

/-- The signed angle difference of View.jsx:
`((bearing - userHeading + 540) % 360) - 180`. -/
def viewSignedAngle (bearing heading : ℝ) : ℝ :=
  jsFmod (bearing - heading + 540) 360 - 180

/-- Threshold constant of the PokemonGoStyleAR component in ARView.jsx. -/
def SHOW_MODEL_DISTANCE : ℝ := 10

/-- Threshold constant of the PokemonGoStyleAR component in ARView.jsx. -/
def MAX_ANGLE_DIFF : ℝ := 45

/-- Threshold constant of View.jsx. -/
def MAX_DISTANCE : ℝ := 100

/-- Threshold constant of View.jsx. -/
def COLLECTION_DISTANCE : ℝ := 5

/-- Threshold constant of View.jsx. -/
def VIEW_ANGLE : ℝ := 30

/-- The on-screen membership test applied to a projected vector:
`vector.z < 1 && vector.x > -1 && vector.x < 1 && vector.y > -1 && vector.y < 1`. -/
def onScreenTest (v : NDC) : Prop :=
  v.z < 1 ∧ v.x > -1 ∧ v.x < 1 ∧ v.y > -1 ∧ v.y < 1

/-- Per-frame outputs of the PokemonGoStyleAR animate loop for one spawn. -/
structure SpawnFrame where
  distance : ℝ
  angleDiff : ℝ
  onScreen : Prop
  visible : Prop

/-- One spawn's per-frame computation in the PokemonGoStyleAR animate loop
(ARView.jsx lines 233-248): distance, bearing, folded angle, on-screen test,
and `visible = dist <= SHOW_MODEL_DISTANCE && angleDiff <= MAX_ANGLE_DIFF && onScreen`.
The projected NDC vector is taken as an input, since the projection itself is
performed by the three.js library. -/
def pokemonFrame (userLoc : GeoPoint) (userHeading : ℝ) (spawn : SpawnPoint)
    (projected : NDC) : SpawnFrame :=
  let dist := haversineDistance userLoc.latitude userLoc.longitude spawn.lat spawn.lng
  let bearing := calculateBearing userLoc.latitude userLoc.longitude spawn.lat spawn.lng
  let a := |jsFmod (bearing - userHeading + 360) 360|
  let angleDiff := if a > 180 then 360 - a else a
  let onScreen := projected.z < 1 ∧ projected.x > -1 ∧ projected.x < 1 ∧
    projected.y > -1 ∧ projected.y < 1
  { distance := dist
    angleDiff := angleDiff
    onScreen := onScreen
    visible := dist ≤ SHOW_MODEL_DISTANCE ∧ angleDiff ≤ MAX_ANGLE_DIFF ∧ onScreen }

/-- Per-frame outputs of the coin-directed animate loops (second ARView copy
and UpdateView). -/
structure CoinFrame where
  distance : ℝ
  angleDiff : ℝ
  onScreen : Prop
  visible : Prop
  canCollect : Prop

/-- The per-frame computation of the second ARView copy (lines 735-771):
`canCollect = distance <= 100` and
`visible = angleDiff <= 90 && distance <= 100 && onScreen`. -/
def arViewFrame (userLoc : GeoPoint) (userHeading : ℝ) (coin : Coin)
    (projected : NDC) : CoinFrame :=
  let distance := haversineDistance userLoc.latitude userLoc.longitude coin.lat coin.lng
  let bearingToCoin := calculateBearing userLoc.latitude userLoc.longitude coin.lat coin.lng
  let a := |jsFmod (bearingToCoin - userHeading + 360) 360|
  let angleDiff := if a > 180 then 360 - a else a
  let onScreen := projected.z < 1 ∧ projected.x > -1 ∧ projected.x < 1 ∧
    projected.y > -1 ∧ projected.y < 1
  { distance := distance
    angleDiff := angleDiff
    onScreen := onScreen
    visible := angleDiff ≤ 90 ∧ distance ≤ 100 ∧ onScreen
    canCollect := distance ≤ 100 }

/-- The per-frame computation of the UpdateView.jsx animate loop (lines
145-176): `canCollect = distance <= 100` and
`visible = angle <= 90 && distance <= 100 && onScreen`. -/
def updateViewFrame (userLoc : GeoPoint) (userHeading : ℝ) (coin : Coin)
    (projected : NDC) : CoinFrame :=
  let distance := haversineDistance userLoc.latitude userLoc.longitude coin.lat coin.lng
  let bearingToCoin := calculateBearing userLoc.latitude userLoc.longitude coin.lat coin.lng
  let a := |jsFmod (bearingToCoin - userHeading + 360) 360|
  let angle := if a > 180 then 360 - a else a
  let onScreen := projected.z < 1 ∧ projected.x > -1 ∧ projected.x < 1 ∧
    projected.y > -1 ∧ projected.y < 1
  { distance := distance
    angleDiff := angle
    onScreen := onScreen
    visible := angle ≤ 90 ∧ distance ≤ 100 ∧ onScreen
    canCollect := distance ≤ 100 }

/-- Per-frame outputs of the dynamic-smoothing ARView variant, which performs
no on-screen test. -/
structure DynFrame where
  distance : ℝ
  angleDiff : ℝ
  visible : Prop
  canCollect : Prop

/-- The per-frame computation of the dynamic-smoothing ARView variant
(ARView.jsx lines 1231-1243): the angle is folded and clamped, and
`visible = angle <= 90 && distance <= 100` with no on-screen conjunct;
`canCollect` is set to `visible`. -/
def arDynFrame (userLoc : GeoPoint) (currentHeading : ℝ) (coin : Coin) : DynFrame :=
  let distance := haversineDistance userLoc.latitude userLoc.longitude coin.lat coin.lng
  let bearingToCoin := calculateBearing userLoc.latitude userLoc.longitude coin.lat coin.lng
  let a := jsFmod (bearingToCoin - currentHeading + 360) 360
  let b := if a > 180 then 360 - a else a
  let angle := min (max b 0) 180
  let visible := angle ≤ 90 ∧ distance ≤ 100
  { distance := distance
    angleDiff := angle
    visible := visible
    canCollect := visible }

/-- Per-frame outputs of the View.jsx animation loop. -/
structure ViewFrame where
  distance : ℝ
  angleDiff : ℝ
  shouldShow : Prop
  canCollect : Prop

/-- The per-frame computation of View.jsx (lines 157-209): a signed angle
difference `((bearing - userHeading + 540) % 360) - 180`,
`shouldShow = |angleDiff| < VIEW_ANGLE && dist < MAX_DISTANCE`, and
`canCollect = dist < COLLECTION_DISTANCE && |angleDiff| < 15`. -/
def viewFrame (userLoc : GeoPoint) (userHeading : ℝ) (coin : Coin) : ViewFrame :=
  let dist := haversineDistance userLoc.latitude userLoc.longitude coin.lat coin.lng
  let bearing := calculateBearing userLoc.latitude userLoc.longitude coin.lat coin.lng
  let angleDiff := jsFmod (bearing - userHeading + 540) 360 - 180
  { distance := dist
    angleDiff := angleDiff
    shouldShow := |angleDiff| < VIEW_ANGLE ∧ dist < MAX_DISTANCE
    canCollect := dist < COLLECTION_DISTANCE ∧ |angleDiff| < 15 }

/-- getSpeed from the dynamic-smoothing ARView variant: distance between GPS
fixes divided by elapsed time (meters per millisecond), 0 when there is no
previous fix or no elapsed time. -/
def getSpeed (current : GeoPoint) (prev : Option GeoPoint) (deltaTime : ℝ) : ℝ :=
  match prev with
  | none => 0
  | some p =>
    if deltaTime = 0 then 0
    else haversineDistance p.latitude p.longitude current.latitude current.longitude / deltaTime

/-- The dynamic smoothing factor of the dynamic-smoothing ARView variant
(line 1218): `Math.min(0.5, 0.05 + Math.min(speed * 1000 / 5, 0.45))`. -/
def smoothingFactor (speed : ℝ) : ℝ :=
  min 0.5 (0.05 + min (speed * 1000 / 5) 0.45)

/-- generateSpawnPoints from ARView.jsx: `count` random spawn points around the
user, each offset by `(Math.random() - 0.5) * 0.0018` degrees in latitude and
longitude; the random draws are modelled as a stream `rand` consumed in call
order (two draws per spawn). -/
def generateSpawnPoints (userLocation : Option GeoPoint) (count : ℕ)
    (rand : ℕ → ℝ) : List SpawnPoint :=
  match userLocation with
  | none => []
  | some u =>
    (List.range count).map fun i =>
      { id := i + 1
        lat := u.latitude + (rand (2 * i) - 0.5) * 0.0018
        lng := u.longitude + (rand (2 * i + 1) - 0.5) * 0.0018
        caught := false }

/-- The fixed COINS list of the map component. -/
def COINS : List Coin :=
  [⟨1, 31.5204, 74.3587⟩, ⟨2, 33.6844, 73.0479⟩, ⟨3, 31.660101, 73.935246⟩,
   ⟨4, 31.420211, 74.24318⟩, ⟨5, 31.660054, 73.935277⟩,
   ⟨6, 31.5654144, 74.3571456⟩, ⟨7, 31.559992487574895, 74.39599295296996⟩,
   ⟨8, 30.9723136, 73.9704832⟩, ⟨9, 31.5293698, 74.3243778⟩,
   ⟨10, 31.506432, 74.3374848⟩, ⟨11, 31.47093, 74.30472⟩,
   ⟨12, 31.4602862, 74.3235425⟩]

/-- Modelled from the spec: the `haversineDistance` helper that the map
component imports from `src/utils/utils.js` is not present under `src/`.
Per spec section 4.1 it is the standard haversine great-circle distance with
mean Earth radius 6371000 m between two GeoPoints. -/
def utilsHaversineDistance (p q : GeoPoint) : ℝ :=
  haversineDistance p.latitude p.longitude q.latitude q.longitude

/-- The outcome of handleARClick: enter AR with a coin, warn that every coin is
too far, or warn that the location is unavailable. -/
inductive ARAction where
  | enterAR (coin : Coin)
  | warnTooFar
  | warnNoLocation

/-- One step of the nearest-coin scan of handleARClick: update the running
closest coin when the new distance is strictly smaller.  A `none` accumulator
models the initial `closestCoin = null, closestDist = Infinity` state, which
every finite distance beats. -/
def scanStep (d : Coin → ℝ) (acc : Option (Coin × ℝ)) (coin : Coin) :
    Option (Coin × ℝ) :=
  match acc with
  | none => some (coin, d coin)
  | some (b, bd) => if d coin < bd then some (coin, d coin) else some (b, bd)

/-- The linear scan of handleARClick over a coin list. -/
def closestScan (d : Coin → ℝ) (l : List Coin) : Option (Coin × ℝ) :=
  l.foldl (scanStep d) none

/-- handleARClick from the map component: with no location it warns; otherwise
it scans COINS for the closest coin and enters AR with it exactly when its
distance is strictly below 500 m, warning otherwise. -/
def handleARClick (userLocation : Option GeoPoint) : ARAction :=
  match userLocation with
  | none => ARAction.warnNoLocation
  | some u =>
    match closestScan (fun c => utilsHaversineDistance u ⟨c.lat, c.lng⟩) COINS with
    | some (c, cd) => if cd < 500 then ARAction.enterAR c else ARAction.warnTooFar
    | none => ARAction.warnTooFar

end

/-! ## Helper lemmas about the JavaScript remainder and atan2 -/

theorem jsFmod_eval (x y : ℝ) (k : ℤ) (hy : 0 < y) (h1 : (k : ℝ) * y ≤ x)
    (h2 : x < ((k : ℝ) + 1) * y) (hx : 0 ≤ x) : jsFmod x y = x - y * (k : ℝ) := by
  have hq : 0 ≤ x / y := div_nonneg hx hy.le
  have hfl : ⌊x / y⌋ = k := by
    rw [Int.floor_eq_iff]
    constructor
    · rw [le_div_iff₀ hy]
      exact h1
    · rw [div_lt_iff₀ hy]
      exact h2
  unfold jsFmod jsTrunc
  rw [if_pos hq, hfl]

theorem jsFmod_nonneg_lt (x y : ℝ) (hx : 0 ≤ x) (hy : 0 < y) :
    0 ≤ jsFmod x y ∧ jsFmod x y < y := by
  have hq : 0 ≤ x / y := div_nonneg hx hy.le
  have h1 : ((⌊x / y⌋ : ℝ)) ≤ x / y := Int.floor_le _
  have h2 : x / y < (⌊x / y⌋ : ℝ) + 1 := Int.lt_floor_add_one _
  have hyx : y * (x / y) = x := by field_simp
  unfold jsFmod jsTrunc
  rw [if_pos hq]
  constructor
  · nlinarith [mul_le_mul_of_nonneg_left h1 hy.le]
  · nlinarith [mul_lt_mul_of_pos_left h2 hy]

theorem atan2_range (y x : ℝ) : -Real.pi < atan2 y x ∧ atan2 y x ≤ Real.pi := by
  have hpi := Real.pi_pos
  have ha1 : Real.arctan (y / x) < Real.pi / 2 := Real.arctan_lt_pi_div_two _
  have ha2 : -(Real.pi / 2) < Real.arctan (y / x) := Real.neg_pi_div_two_lt_arctan _
  unfold atan2
  split_ifs with h1 h2 h3 h4 h5
  · exact ⟨by linarith, by linarith⟩
  · have hyx : y / x ≤ 0 := div_nonpos_iff.mpr (Or.inl ⟨h2.2, h2.1.le⟩)
    have hle : Real.arctan (y / x) ≤ 0 := by
      have := Real.arctan_strictMono.monotone hyx
      rwa [Real.arctan_zero] at this
    exact ⟨by linarith, by linarith⟩
  · have hyx : 0 < y / x := div_pos_of_neg_of_neg h3.2 h3.1
    have hgt : 0 < Real.arctan (y / x) := by
      have := Real.arctan_strictMono hyx
      rwa [Real.arctan_zero] at this
    exact ⟨by linarith, by linarith⟩
  · exact ⟨by linarith, by linarith⟩
  · exact ⟨by linarith, by linarith⟩
  · exact ⟨by linarith, by linarith⟩

theorem haversine_self (la lo : ℝ) : haversineDistance la lo la lo = 0 := by
  simp only [haversineDistance, haversineA, toRad, sub_self, zero_mul, zero_div,
    Real.sin_zero, ne_eq, OfNat.ofNat_ne_zero, not_false_eq_true, zero_pow,
    mul_zero, add_zero, Real.sqrt_zero, sub_zero, Real.sqrt_one]
  have h01 : (0:ℝ) < 1 := by norm_num
  simp only [atan2, if_pos h01, zero_div, Real.arctan_zero, mul_zero]

theorem bearing_self (la lo : ℝ) : calculateBearing la lo la lo = 0 := by
  have h0 : toRad (lo - lo) = 0 := by
    unfold toRad
    rw [sub_self, zero_mul, zero_div]
  simp only [calculateBearing, h0, Real.sin_zero, Real.cos_zero, zero_mul, mul_one]
  have hx : Real.cos (toRad la) * Real.sin (toRad la) -
      Real.sin (toRad la) * Real.cos (toRad la) = 0 := by ring
  rw [hx]
  have hatan : atan2 0 0 = 0 := by
    unfold atan2
    norm_num
  rw [hatan]
  have hdeg : toDeg 0 = 0 := by
    unfold toDeg
    rw [zero_mul, zero_div]
  rw [hdeg, zero_add]
  have := jsFmod_eval 360 360 1 (by norm_num) (by push_cast; norm_num)
    (by push_cast; norm_num) (by norm_num)
  rw [this]
  norm_num

/-- C8: calculateBearing returns a value in the half-open interval [0, 360)
for all real degree inputs. -/
theorem c8_bearing_range (lat1 lon1 lat2 lon2 : ℝ) :
    0 ≤ calculateBearing lat1 lon1 lat2 lon2 ∧
    calculateBearing lat1 lon1 lat2 lon2 < 360 := by
  have key : ∀ a b : ℝ, 0 ≤ jsFmod (toDeg (atan2 a b) + 360) 360 ∧
      jsFmod (toDeg (atan2 a b) + 360) 360 < 360 := by
    intro a b
    have hrange := atan2_range a b
    have hpi := Real.pi_pos
    have hdeg : -180 < toDeg (atan2 a b) := by
      unfold toDeg
      rw [lt_div_iff₀ hpi]
      nlinarith [hrange.1]
    exact jsFmod_nonneg_lt _ 360 (by linarith) (by norm_num)
  exact key _ _

/-- C9: haversineDistance is symmetric in its two points. -/
theorem c9_haversine_symm (lat1 lon1 lat2 lon2 : ℝ) :
    haversineDistance lat1 lon1 lat2 lon2 = haversineDistance lat2 lon2 lat1 lon1 := by
  have ha : haversineA lat1 lon1 lat2 lon2 = haversineA lat2 lon2 lat1 lon1 := by
    simp only [haversineA]
    have h1 : toRad (lat1 - lat2) = -toRad (lat2 - lat1) := by unfold toRad; ring
    have h2 : toRad (lon1 - lon2) = -toRad (lon2 - lon1) := by unfold toRad; ring
    rw [h1, h2, neg_div, neg_div, Real.sin_neg, Real.sin_neg]
    ring
  simp only [haversineDistance, ha]

/-- C4 (amended): for bearing and heading in [0, 360), the folded angle
difference of the ARView and UpdateView animate loops equals the absolute
circular difference min(|bearing - heading|, 360 - |bearing - heading|) and
lies in [0, 180]; the View.jsx animation loop instead computes a signed
circular difference lying in [-180, 180), whose absolute value equals the
absolute circular difference. -/
theorem c4_angle_fold (b h : ℝ) (hb0 : 0 ≤ b) (hb1 : b < 360)
    (hh0 : 0 ≤ h) (hh1 : h < 360) :
    (foldAngle b h = min |b - h| (360 - |b - h|) ∧
      0 ≤ foldAngle b h ∧ foldAngle b h ≤ 180) ∧
    (-180 ≤ viewSignedAngle b h ∧ viewSignedAngle b h < 180 ∧
      |viewSignedAngle b h| = min |b - h| (360 - |b - h|)) := by
  have h360 : (0:ℝ) < 360 := by norm_num
  rcases le_or_lt h b with hbh | hbh
  · have hd0 : (0:ℝ) ≤ b - h := by linarith
    have hd1 : b - h < 360 := by linarith
    have habs : |b - h| = b - h := abs_of_nonneg hd0
    have e1 : jsFmod (b - h + 360) 360 = b - h := by
      have he := jsFmod_eval (b - h + 360) 360 1 h360 (by push_cast; linarith)
        (by push_cast; linarith) (by linarith)
      rw [he]
      push_cast
      ring
    have hfold : foldAngle b h = if b - h > 180 then 360 - (b - h) else b - h := by
      simp only [foldAngle, e1, abs_of_nonneg hd0]
    constructor
    · rw [hfold, habs]
      by_cases h180 : b - h > 180
      · rw [if_pos h180, min_eq_right (by linarith)]
        exact ⟨rfl, by linarith, by linarith⟩
      · rw [if_neg h180]
        push_neg at h180
        rw [min_eq_left (by linarith)]
        exact ⟨rfl, by linarith, by linarith⟩
    · by_cases hlt : b - h < 180
      · have e2 : jsFmod (b - h + 540) 360 = b - h + 180 := by
          have he := jsFmod_eval (b - h + 540) 360 1 h360 (by push_cast; linarith)
            (by push_cast; linarith) (by linarith)
          rw [he]
          push_cast
          ring
        have hv : viewSignedAngle b h = b - h := by
          simp only [viewSignedAngle, e2]
          ring
        rw [hv, habs]
        refine ⟨by linarith, by linarith, ?_⟩
        rw [min_eq_left (by linarith)]
      · push_neg at hlt
        have e2 : jsFmod (b - h + 540) 360 = b - h - 180 := by
          have he := jsFmod_eval (b - h + 540) 360 2 h360 (by push_cast; linarith)
            (by push_cast; linarith) (by linarith)
          rw [he]
          push_cast
          ring
        have hv : viewSignedAngle b h = b - h - 360 := by
          simp only [viewSignedAngle, e2]
          ring
        rw [hv, habs]
        refine ⟨by linarith, by linarith, ?_⟩
        rw [abs_of_neg (by linarith : b - h - 360 < 0), min_eq_right (by linarith)]
        ring
  · have hd0 : b - h < 0 := by linarith
    have hdm : -360 < b - h := by linarith
    have habs : |b - h| = -(b - h) := abs_of_neg hd0
    have e1 : jsFmod (b - h + 360) 360 = b - h + 360 := by
      have he := jsFmod_eval (b - h + 360) 360 0 h360 (by push_cast; linarith)
        (by push_cast; linarith) (by linarith)
      rw [he]
      push_cast
      ring
    have hfold : foldAngle b h =
        if b - h + 360 > 180 then 360 - (b - h + 360) else b - h + 360 := by
      simp only [foldAngle, e1, abs_of_nonneg (show (0:ℝ) ≤ b - h + 360 by linarith)]
    constructor
    · rw [hfold, habs]
      by_cases h180 : b - h + 360 > 180
      · rw [if_pos h180, min_eq_left (by linarith)]
        exact ⟨by ring, by linarith, by linarith⟩
      · rw [if_neg h180]
        push_neg at h180
        rw [min_eq_right (by linarith)]
        exact ⟨by ring, by linarith, by linarith⟩
    · by_cases hx : -180 ≤ b - h
      · have e2 : jsFmod (b - h + 540) 360 = b - h + 180 := by
          have he := jsFmod_eval (b - h + 540) 360 1 h360 (by push_cast; linarith)
            (by push_cast; linarith) (by linarith)
          rw [he]
          push_cast
          ring
        have hv : viewSignedAngle b h = b - h := by
          simp only [viewSignedAngle, e2]
          ring
        rw [hv, habs]
        refine ⟨by linarith, by linarith, ?_⟩
        rw [min_eq_left (by linarith)]
      · push_neg at hx
        have e2 : jsFmod (b - h + 540) 360 = b - h + 540 := by
          have he := jsFmod_eval (b - h + 540) 360 0 h360 (by push_cast; linarith)
            (by push_cast; linarith) (by linarith)
          rw [he]
          push_cast
          ring
        have hv : viewSignedAngle b h = b - h + 360 := by
          simp only [viewSignedAngle, e2]
          ring
        rw [hv, habs]
        refine ⟨by linarith, by linarith, ?_⟩
        rw [abs_of_nonneg (show (0:ℝ) ≤ b - h + 360 by linarith),
          min_eq_right (by linarith)]
        ring

/-- Witness for C4 at bearing 90, heading 0. -/
theorem c4_witness :
    (foldAngle 90 0 = min |(90:ℝ) - 0| (360 - |(90:ℝ) - 0|) ∧
      0 ≤ foldAngle 90 0 ∧ foldAngle 90 0 ≤ 180) ∧
    (-180 ≤ viewSignedAngle 90 0 ∧ viewSignedAngle 90 0 < 180 ∧
      |viewSignedAngle 90 0| = min |(90:ℝ) - 0| (360 - |(90:ℝ) - 0|)) :=
  c4_angle_fold 90 0 (by norm_num) (by norm_num) (by norm_num) (by norm_num)

/-- Counterexample for C4 as stated: the View.jsx per-frame angle difference
at bearing 0 and heading 90 is -90, which is negative and differs from the
absolute circular difference min(|0 - 90|, 360 - |0 - 90|) = 90. -/
theorem c4_counterexample :
    viewSignedAngle 0 90 = -90 ∧
    viewSignedAngle 0 90 ≠ min |(0:ℝ) - 90| (360 - |(0:ℝ) - 90|) := by
  have e : jsFmod ((0:ℝ) - 90 + 540) 360 = 90 := by
    have h1 : ((0:ℝ) - 90 + 540) = 450 := by norm_num
    rw [h1]
    have he := jsFmod_eval 450 360 1 (by norm_num) (by push_cast; norm_num)
      (by push_cast; norm_num) (by norm_num)
    rw [he]
    norm_num
  have hv : viewSignedAngle 0 90 = -90 := by
    unfold viewSignedAngle
    rw [e]
    norm_num
  refine ⟨hv, ?_⟩
  rw [hv]
  have h1 : ((0:ℝ) - 90) = -90 := by norm_num
  have h2 : |(0:ℝ) - 90| = 90 := by
    rw [h1, abs_neg, abs_of_nonneg (by norm_num : (0:ℝ) ≤ 90)]
  rw [h2, min_eq_left (by norm_num)]
  norm_num

/-- C1 (amended): in the PokemonGoStyleAR loop, the second ARView copy, and
UpdateView, the per-frame visibility flag holds exactly when the distance is
at most the show threshold, the folded angle difference is at most the angle
threshold, and the projected position passes the on-screen test; in the
dynamic-smoothing ARView variant the visibility flag holds exactly when the
clamped folded angle is at most 90 and the distance is at most 100, with no
on-screen conjunct. -/
theorem c1_visible_variants (u : GeoPoint) (hdg : ℝ) (s : SpawnPoint)
    (c : Coin) (v : NDC) :
    ((pokemonFrame u hdg s v).visible ↔
      haversineDistance u.latitude u.longitude s.lat s.lng ≤ SHOW_MODEL_DISTANCE ∧
      foldAngle (calculateBearing u.latitude u.longitude s.lat s.lng) hdg ≤ MAX_ANGLE_DIFF ∧
      onScreenTest v) ∧
    ((arViewFrame u hdg c v).visible ↔
      foldAngle (calculateBearing u.latitude u.longitude c.lat c.lng) hdg ≤ 90 ∧
      haversineDistance u.latitude u.longitude c.lat c.lng ≤ 100 ∧
      onScreenTest v) ∧
    ((updateViewFrame u hdg c v).visible ↔
      foldAngle (calculateBearing u.latitude u.longitude c.lat c.lng) hdg ≤ 90 ∧
      haversineDistance u.latitude u.longitude c.lat c.lng ≤ 100 ∧
      onScreenTest v) ∧
    ((arDynFrame u hdg c).visible ↔
      foldAngleClamped (calculateBearing u.latitude u.longitude c.lat c.lng) hdg ≤ 90 ∧
      haversineDistance u.latitude u.longitude c.lat c.lng ≤ 100) :=
  ⟨Iff.rfl, Iff.rfl, Iff.rfl, Iff.rfl⟩

/-- Counterexample for C1 as stated: with the user standing at the coin of the
dynamic-smoothing ARView variant (distance 0, folded angle 0) and a projected
position that fails the on-screen test (z = 2), the variant's visibility flag
is nevertheless true, so visibility there is not equivalent to the
three-conjunct formula. -/
theorem c1_counterexample :
    ¬ ((arDynFrame ⟨0, 0⟩ 0 ⟨1, 0, 0⟩).visible ↔
        (arDynFrame ⟨0, 0⟩ 0 ⟨1, 0, 0⟩).distance ≤ 100 ∧
        (arDynFrame ⟨0, 0⟩ 0 ⟨1, 0, 0⟩).angleDiff ≤ 90 ∧
        onScreenTest ⟨0, 0, 2⟩) := by
  intro hiff
  have hd : haversineDistance (0:ℝ) 0 0 0 = 0 := haversine_self 0 0
  have hb : calculateBearing (0:ℝ) 0 0 0 = 0 := bearing_self 0 0
  have hm : jsFmod (360:ℝ) 360 = 0 := by
    have he := jsFmod_eval 360 360 1 (by norm_num) (by push_cast; norm_num)
      (by push_cast; norm_num) (by norm_num)
    rw [he]
    norm_num
  have hvis : (arDynFrame ⟨0, 0⟩ 0 ⟨1, 0, 0⟩).visible := by
    simp only [arDynFrame, hb, hd]
    norm_num [hm]
  have hrhs := hiff.mp hvis
  have hnos : ¬ onScreenTest ⟨0, 0, 2⟩ := by
    intro hos
    have h2 := hos.1
    norm_num at h2
  exact hnos hrhs.2.2

/-- C2 (amended): in the second ARView copy and in UpdateView, the per-frame
collectible flag holds exactly when the haversine distance is at most 100 m,
inclusive at the boundary and independent of the facing angle and the
on-screen test; in View.jsx, canCollect instead requires the distance to be
strictly below 5 m AND the absolute signed angle difference to be strictly
below 15 degrees, so it does depend on the facing angle. -/
theorem c2_canCollect_variants (u : GeoPoint) (hdg : ℝ) (c : Coin) (v : NDC) :
    ((arViewFrame u hdg c v).canCollect ↔
      haversineDistance u.latitude u.longitude c.lat c.lng ≤ 100) ∧
    ((updateViewFrame u hdg c v).canCollect ↔
      haversineDistance u.latitude u.longitude c.lat c.lng ≤ 100) ∧
    ((viewFrame u hdg c).canCollect ↔
      haversineDistance u.latitude u.longitude c.lat c.lng < COLLECTION_DISTANCE ∧
      |viewSignedAngle (calculateBearing u.latitude u.longitude c.lat c.lng) hdg| < 15) :=
  ⟨Iff.rfl, Iff.rfl, Iff.rfl⟩

/-- Counterexample for C2 as stated: in View.jsx, with the user standing at
the coin (distance 0, below every threshold) but heading 90 degrees away,
canCollect is false even though the distance is at most the collect
threshold, so the collectible flag is not equivalent to the pure distance
test and does depend on the facing angle. -/
theorem c2_counterexample :
    ¬ ((viewFrame ⟨0, 0⟩ 90 ⟨1, 0, 0⟩).canCollect ↔
        (viewFrame ⟨0, 0⟩ 90 ⟨1, 0, 0⟩).distance ≤ COLLECTION_DISTANCE) := by
  intro hiff
  have hd : haversineDistance (0:ℝ) 0 0 0 = 0 := haversine_self 0 0
  have hb : calculateBearing (0:ℝ) 0 0 0 = 0 := bearing_self 0 0
  have hm : jsFmod (450:ℝ) 360 = 90 := by
    have he := jsFmod_eval 450 360 1 (by norm_num) (by push_cast; norm_num)
      (by push_cast; norm_num) (by norm_num)
    rw [he]
    norm_num
  have hdist : (viewFrame ⟨0, 0⟩ 90 ⟨1, 0, 0⟩).distance ≤ COLLECTION_DISTANCE := by
    simp only [viewFrame, hd, COLLECTION_DISTANCE]
    norm_num
  have hcc := hiff.mpr hdist
  simp only [viewFrame, hb, hd] at hcc
  have habs : |(-90:ℝ)| = 90 := by
    rw [abs_neg, abs_of_nonneg (by norm_num : (0:ℝ) ≤ 90)]
  norm_num [hm, habs] at hcc

theorem scanStep_fold_spec (d : Coin → ℝ) :
    ∀ (l : List Coin) (b : Coin),
      ∃ c, List.foldl (scanStep d) (some (b, d b)) l = some (c, d c) ∧
        (c = b ∨ c ∈ l) ∧ d c ≤ d b ∧ ∀ x ∈ l, d c ≤ d x := by
  intro l
  induction l with
  | nil =>
    intro b
    exact ⟨b, rfl, Or.inl rfl, le_refl _, by simp⟩
  | cons a t ih =>
    intro b
    by_cases hlt : d a < d b
    · obtain ⟨c, hfold, hmem, hle, hall⟩ := ih a
      refine ⟨c, ?_, ?_, hle.trans hlt.le, ?_⟩
      · rw [List.foldl_cons]
        simpa [scanStep, hlt] using hfold
      · rcases hmem with hc | hc
        · exact Or.inr (by simp [hc])
        · exact Or.inr (List.mem_cons_of_mem a hc)
      · intro x hx
        rcases List.mem_cons.mp hx with hc | hc
        · rw [hc]
          exact hle
        · exact hall x hc
    · obtain ⟨c, hfold, hmem, hle, hall⟩ := ih b
      refine ⟨c, ?_, ?_, hle, ?_⟩
      · rw [List.foldl_cons]
        simpa [scanStep, hlt] using hfold
      · rcases hmem with hc | hc
        · exact Or.inl hc
        · exact Or.inr (List.mem_cons_of_mem a hc)
      · intro x hx
        rcases List.mem_cons.mp hx with hc | hc
        · rw [hc]
          exact hle.trans (not_lt.mp hlt)
        · exact hall x hc

theorem closestScan_spec (d : Coin → ℝ) (a : Coin) (t : List Coin) :
    ∃ c, closestScan d (a :: t) = some (c, d c) ∧ c ∈ a :: t ∧
      ∀ x ∈ a :: t, d c ≤ d x := by
  obtain ⟨c, hfold, hmem, hle, hall⟩ := scanStep_fold_spec d t a
  refine ⟨c, ?_, ?_, ?_⟩
  · unfold closestScan
    rw [List.foldl_cons]
    simpa [scanStep] using hfold
  · rcases hmem with hc | hc
    · rw [hc]
      exact List.mem_cons_self a t
    · exact List.mem_cons_of_mem a hc
  · intro x hx
    rcases List.mem_cons.mp hx with hc | hc
    · rw [hc]
      exact hle
    · exact hall x hc

/-- C3: for every non-null user location, handleARClick scans the fixed COINS
list and either enters AR with a coin of COINS whose haversine distance to
the user is minimal and strictly below 500 m, or, when every coin of COINS
is at least 500 m away, only surfaces the too-far warning and enters AR with
no coin. -/
theorem c3_handleARClick (u : GeoPoint) :
    (∃ c, c ∈ COINS ∧ handleARClick (some u) = ARAction.enterAR c ∧
      utilsHaversineDistance u ⟨c.lat, c.lng⟩ < 500 ∧
      ∀ x ∈ COINS, utilsHaversineDistance u ⟨c.lat, c.lng⟩ ≤
        utilsHaversineDistance u ⟨x.lat, x.lng⟩) ∨
    (handleARClick (some u) = ARAction.warnTooFar ∧
      ∀ x ∈ COINS, 500 ≤ utilsHaversineDistance u ⟨x.lat, x.lng⟩) := by
  obtain ⟨a, t, hco⟩ : ∃ a t, COINS = a :: t := ⟨_, _, rfl⟩
  obtain ⟨c, hscan, hmem, hall⟩ :=
    closestScan_spec (fun x => utilsHaversineDistance u ⟨x.lat, x.lng⟩) a t
  rw [← hco] at hscan hmem hall
  have hclick : handleARClick (some u) =
      if utilsHaversineDistance u ⟨c.lat, c.lng⟩ < 500 then ARAction.enterAR c
      else ARAction.warnTooFar := by
    unfold handleARClick
    dsimp only
    rw [hscan]
  by_cases h5 : utilsHaversineDistance u ⟨c.lat, c.lng⟩ < 500
  · left
    refine ⟨c, hmem, ?_, h5, hall⟩
    rw [hclick, if_pos h5]
  · right
    constructor
    · rw [hclick, if_neg h5]
    · intro x hx
      exact le_trans (not_lt.mp h5) (hall x hx)

/-- C5: for a non-null, non-NaN previous value and a factor in [0, 1],
smoothValue stays in the closed interval between prev and next and moves
monotonically toward next. -/
theorem c5_smooth_bounds (p next factor : ℝ) (h0 : 0 ≤ factor) (h1 : factor ≤ 1) :
    min p next ≤ smoothValue (some p) next factor ∧
    smoothValue (some p) next factor ≤ max p next ∧
    |smoothValue (some p) next factor - next| ≤ |p - next| := by
  simp only [smoothValue]
  refine ⟨?_, ?_, ?_⟩
  · rcases le_total p next with hpn | hpn
    · rw [min_eq_left hpn]
      nlinarith [mul_nonneg (sub_nonneg.mpr hpn) h0]
    · rw [min_eq_right hpn]
      nlinarith [mul_nonneg (sub_nonneg.mpr hpn) (sub_nonneg.mpr h1)]
  · rcases le_total p next with hpn | hpn
    · rw [max_eq_right hpn]
      nlinarith [mul_nonneg (sub_nonneg.mpr hpn) (sub_nonneg.mpr h1)]
    · rw [max_eq_left hpn]
      nlinarith [mul_nonneg (sub_nonneg.mpr hpn) h0]
  · have key : p + (next - p) * factor - next = (p - next) * (1 - factor) := by
      ring
    rw [key, abs_mul, abs_of_nonneg (by linarith : (0:ℝ) ≤ 1 - factor)]
    nlinarith [abs_nonneg (p - next)]

/-- Witness for C5 at prev 0, next 2, factor 1/2. -/
theorem c5_witness :
    (0:ℝ) ≤ 1/2 ∧ (1:ℝ)/2 ≤ 1 ∧
    (min (0:ℝ) 2 ≤ smoothValue (some 0) 2 (1/2) ∧
      smoothValue (some 0) 2 (1/2) ≤ max (0:ℝ) 2 ∧
      |smoothValue (some 0) 2 (1/2) - 2| ≤ |(0:ℝ) - 2|) :=
  ⟨by norm_num, by norm_num, c5_smooth_bounds 0 2 (1/2) (by norm_num) (by norm_num)⟩

/-- C6: with a null (or NaN) previous value, smoothValue returns next
unchanged for every factor (cold-start bypass). -/
theorem c6_cold_start (next factor : ℝ) : smoothValue none next factor = next := rfl

/-- C7: the dynamic smoothing factor lies in [0.05, 0.5] for every
non-negative speed and is monotonically non-decreasing in the speed. -/
theorem c7_factor_range_mono (s t : ℝ) (hs : 0 ≤ s) (hst : s ≤ t) :
    0.05 ≤ smoothingFactor s ∧ smoothingFactor s ≤ 0.5 ∧
    smoothingFactor s ≤ smoothingFactor t := by
  unfold smoothingFactor
  refine ⟨?_, min_le_left _ _, ?_⟩
  · apply le_min (by norm_num)
    have hmin : (0:ℝ) ≤ min (s * 1000 / 5) 0.45 :=
      le_min (div_nonneg (mul_nonneg hs (by norm_num)) (by norm_num)) (by norm_num)
    linarith
  · apply min_le_min le_rfl
    have hmono : s * 1000 / 5 ≤ t * 1000 / 5 := by linarith
    have h2 : min (s * 1000 / 5) 0.45 ≤ min (t * 1000 / 5) 0.45 :=
      min_le_min hmono le_rfl
    linarith

/-- Witness for C7 at speeds 0 and 1. -/
theorem c7_witness :
    (0:ℝ) ≤ 0 ∧ (0:ℝ) ≤ 1 ∧
    (0.05 ≤ smoothingFactor 0 ∧ smoothingFactor 0 ≤ 0.5 ∧
      smoothingFactor 0 ≤ smoothingFactor 1) :=
  ⟨le_refl 0, by norm_num, c7_factor_range_mono 0 1 (le_refl 0) (by norm_num)⟩

/-- C10: for a null user location generateSpawnPoints returns the empty list;
for a non-null user location and random draws in [0, 1) it returns exactly
count spawn points whose ids are 1..count in order, each not caught and with
latitude and longitude within plus or minus 0.0009 degrees of the user. -/
theorem c10_generateSpawnPoints (u : GeoPoint) (count : ℕ) (rand : ℕ → ℝ)
    (hr : ∀ n, 0 ≤ rand n ∧ rand n < 1) :
    generateSpawnPoints none count rand = [] ∧
    (generateSpawnPoints (some u) count rand).length = count ∧
    ∀ i : Fin (generateSpawnPoints (some u) count rand).length,
      ((generateSpawnPoints (some u) count rand).get i).id = (i : ℕ) + 1 ∧
      ((generateSpawnPoints (some u) count rand).get i).caught = false ∧
      |((generateSpawnPoints (some u) count rand).get i).lat - u.latitude| ≤ 0.0009 ∧
      |((generateSpawnPoints (some u) count rand).get i).lng - u.longitude| ≤ 0.0009 := by
  refine ⟨rfl, by simp [generateSpawnPoints], ?_⟩
  intro i
  have hget : (generateSpawnPoints (some u) count rand).get i =
      { id := (i : ℕ) + 1
        lat := u.latitude + (rand (2 * (i : ℕ)) - 0.5) * 0.0018
        lng := u.longitude + (rand (2 * (i : ℕ) + 1) - 0.5) * 0.0018
        caught := false } := by
    simp [generateSpawnPoints, List.get_eq_getElem]
  rw [hget]
  have hside : ∀ n : ℕ, |(rand n - 0.5) * 0.0018| ≤ 0.0009 := by
    intro n
    have h1 := hr n
    rw [abs_mul, abs_of_nonneg (by norm_num : (0:ℝ) ≤ 0.0018)]
    have h2 : |rand n - 0.5| ≤ 0.5 := by
      rw [abs_le]
      constructor
      · linarith [h1.1]
      · linarith [h1.2]
    nlinarith [abs_nonneg (rand n - 0.5)]
  refine ⟨rfl, rfl, ?_, ?_⟩
  · have he : u.latitude + (rand (2 * (i : ℕ)) - 0.5) * 0.0018 - u.latitude =
        (rand (2 * (i : ℕ)) - 0.5) * 0.0018 := by ring
    rw [he]
    exact hside _
  · have he : u.longitude + (rand (2 * (i : ℕ) + 1) - 0.5) * 0.0018 - u.longitude =
        (rand (2 * (i : ℕ) + 1) - 0.5) * 0.0018 := by ring
    rw [he]
    exact hside _

/-- Witness for C10 with the constant draw 1/2, one spawn, user at the origin. -/
theorem c10_witness :
    (∀ n : ℕ, 0 ≤ (fun _ : ℕ => (1:ℝ)/2) n ∧ (fun _ : ℕ => (1:ℝ)/2) n < 1) ∧
    (generateSpawnPoints none 1 (fun _ : ℕ => (1:ℝ)/2) = [] ∧
      (generateSpawnPoints (some ⟨0, 0⟩) 1 (fun _ : ℕ => (1:ℝ)/2)).length = 1 ∧
      ∀ i : Fin (generateSpawnPoints (some ⟨0, 0⟩) 1 (fun _ : ℕ => (1:ℝ)/2)).length,
        ((generateSpawnPoints (some ⟨0, 0⟩) 1 (fun _ : ℕ => (1:ℝ)/2)).get i).id = (i : ℕ) + 1 ∧
        ((generateSpawnPoints (some ⟨0, 0⟩) 1 (fun _ : ℕ => (1:ℝ)/2)).get i).caught = false ∧
        |((generateSpawnPoints (some ⟨0, 0⟩) 1 (fun _ : ℕ => (1:ℝ)/2)).get i).lat -
          (⟨0, 0⟩ : GeoPoint).latitude| ≤ 0.0009 ∧
        |((generateSpawnPoints (some ⟨0, 0⟩) 1 (fun _ : ℕ => (1:ℝ)/2)).get i).lng -
          (⟨0, 0⟩ : GeoPoint).longitude| ≤ 0.0009) :=
  ⟨fun _ => ⟨by norm_num, by norm_num⟩,
    c10_generateSpawnPoints ⟨0, 0⟩ 1 (fun _ => (1:ℝ)/2)
      (fun _ => ⟨by norm_num, by norm_num⟩)⟩
